import Mathlib

/-!
# go-idempotence: the bid endpoint of `main.go`

A shallow embedding of `postBidHandler`, `getBidHandler` and `runWithLock`.

Modelling conventions.

* The process state is the global `CurrentBidValue`, the idempotency records
  of the Redis store (key, integer value, `EX` seconds), the lock names
  currently held, and a trace of the lock and store calls made so far.
* Everything the handler obtains from outside is an explicit input of the
  request: the `Idempotence-Key` header (`""` when absent, as `Header.Get`
  returns it), the outcome of `lock.Lock()`, the outcome of `c.Bind`, and
  whether the Redis `GET` / `SET` calls return an error.  A `GET` that does
  not fail answers from the modelled store.  A `SET` that returns an error
  has either not been executed by Redis or, when its reply was lost, been
  executed all the same; the handler sees the error only.
* Go errors are represented by their text; `redis.ErrNil` is a constructor of
  its own because the code compares it by identity.
* `c.JSON` is taken to write its response and return `nil`.
* Bid values are Go `int`s; the handler only compares, stores and prints
  them, so they are modelled by `Int`.
-/

namespace GoIdempotence

/-! ## Constants (`main.go` lines 14-18) -/

/-- Go `time.Second`, in nanoseconds. -/
def Second : Nat := 1000000000

/-- Source constant `IdempotenceHeader`. -/
def IdempotenceHeader : String := "Idempotence-Key"

/-- Source constant `KeyExpireTime = 60 * 60 * 24`. -/
def KeyExpireTime : Nat := 60 * 60 * 24

/-- Source constant `LockExpireTime = 10 * time.Second`. -/
def LockExpireTime : Nat := 10 * Second

/-- Go `http.StatusOK`. -/
def StatusOK : Nat := 200

/-- Go `http.StatusBadRequest`. -/
def StatusBadRequest : Nat := 400

/-- Go `http.StatusUnauthorized`. -/
def StatusUnauthorized : Nat := 401

/-- Go `http.StatusInternalServerError`. -/
def StatusInternalServerError : Nat := 500

/-! ## Data model -/

/-- Source type `BidReponse` (lines 31-34). -/
structure BidReponse where
  Ok : Bool
  Message : String
deriving DecidableEq, Repr

/-- What a handler hands back to the router: a JSON response it wrote, or a
non-nil `error` it returned without writing anything. -/
inductive HandlerResult where
  | json (status : Nat) (body : BidReponse)
  | bid (status : Nat) (value : Int)
  | failed (err : String)
deriving DecidableEq, Repr

/-- One record of the Redis store: the integer written by `SET key value EX ex`. -/
structure Entry where
  value : Int
  ex : Nat
deriving DecidableEq, Repr

/-- Idempotency records of the Redis store, most recent write first. -/
abbrev Store := List (String × Entry)

/-- Redis `GET key` on the records. -/
def Store.get : Store → String → Option Entry
  | [], _ => none
  | (k, e) :: rest, key => if k = key then some e else Store.get rest key

/-- Redis `DEL key` (also what the elapse of a TTL does to a key). -/
def Store.del : Store → String → Store
  | [], _ => []
  | (k, e) :: rest, key =>
    if k = key then Store.del rest key else (k, e) :: Store.del rest key

/-- Redis `SET key value EX ex`: the key now holds the new record only. -/
def Store.set (s : Store) (key : String) (e : Entry) : Store :=
  (key, e) :: Store.del s key

/-- Calls made to the lock provider and the store, in program order; the flag
of `set` tells whether the call returned without error. -/
inductive Event where
  | lock (resource : String) (expiry : Nat) (acquired : Bool)
  | unlock (resource : String)
  | bind
  | get (key : String)
  | sleep (duration : Nat)
  | set (key : String) (value : Int) (ex : Nat) (ok : Bool)
deriving DecidableEq, Repr

/-- Process state together with the shared store and the call trace. -/
structure World where
  CurrentBidValue : Int
  store : Store
  held : List String
  log : List Event
deriving DecidableEq, Repr

/-- State at process start: `CurrentBidValue = 0` (line 21), nothing stored. -/
def World.init : World :=
  { CurrentBidValue := 0, store := [], held := [], log := [] }

/-- Append one call to the trace. -/
def World.emit (w : World) (e : Event) : World :=
  { w with log := w.log ++ [e] }

/-- Outcome of `c.Bind(request)`: an error, or the decoded `request.Value`. -/
inductive BindResult where
  | ok (value : Int)
  | err (detail : String)
deriving DecidableEq, Repr

/-- Outside outcomes of one `POST /bid`: the error of `lock.Lock()`, the result
of `c.Bind`, the error of `GET` other than `redis.ErrNil`, the error of `SET`,
and, for a `SET` that returns an error, whether Redis executed it nonetheless. -/
structure Env where
  lockErr : Option String
  bind : BindResult
  getErr : Option String
  setErr : Option String
  setLost : Bool := false
deriving DecidableEq, Repr

/-- The `SET` returns an error although Redis executed it (its reply was lost). -/
def Env.lostWrite (env : Env) : Bool := env.setErr.isSome && env.setLost

/-- The store after `Do("SET", key, value, "EX", KeyExpireTime)` of line 79:
written when the call returns no error, and also when only its reply was lost. -/
def storeAfterSet (env : Env) (s : Store) (key : String) (value : Int) : Store :=
  if env.setErr = none ∨ env.setLost = true then s.set key ⟨value, KeyExpireTime⟩ else s

/-- Result of `redis.Int(rPool.Get().Do("GET", key))`. -/
inductive GetResult where
  | value (n : Int)
  | errNil
  | error (e : String)
deriving DecidableEq, Repr

/-- The `GET` of line 56: a transport error if the environment says so,
otherwise the stored integer or `redis.ErrNil` for a missing key. -/
def redisGet (getErr : Option String) (s : Store) (key : String) : GetResult :=
  match getErr with
  | some e => .error e
  | none =>
    match s.get key with
    | some e => .value e.value
    | none => .errNil

/-! ## The handlers -/

/-- Lock resource name of a token: `fmt.Sprintf("lock:%s", key)` (line 47). -/
def lockName (key : String) : String := "lock:" ++ key

/-- Store key of a token's idempotency record: the token itself (lines 56, 79). -/
def recordKey (key : String) : String := key

/-- Message of the idempotent replay (line 65). -/
def cachedMessage (existingBid : Int) : String :=
  "Bid with value " ++ toString existingBid ++ " (cached)"

/-- Message of a successful bid (line 91). -/
def savedMessage (current : Int) : String :=
  "Bid with value " ++ toString current ++ " (saved)"

/-- Source function `runWithLock` (lines 128-135): try the lock; on failure
return the error; otherwise run `f`, then the deferred `Unlock`, and return
what `f` returned. -/
def runWithLock (lockErr : Option String) (resource : String)
    (f : World → HandlerResult × World) (w : World) : HandlerResult × World :=
  match lockErr with
  | some err => (.failed err, w.emit (.lock resource LockExpireTime false))
  | none =>
    let w1 := { w.emit (.lock resource LockExpireTime true) with held := resource :: w.held }
    let out := f w1
    (out.1, { out.2.emit (.unlock resource) with held := out.2.held.erase resource })

/-- The closure passed to `runWithLock` by `postBidHandler` (lines 47-93). -/
def postBidBody (key : String) (env : Env) (w : World) : HandlerResult × World :=
  let w1 := w.emit .bind
  match env.bind with
  | .err detail =>
    (.json StatusBadRequest ⟨false, "Invalid request. ERR: " ++ detail⟩, w1)
  | .ok value =>
    let w2 := w1.emit (.get (recordKey key))
    match redisGet env.getErr w2.store (recordKey key) with
    | .error e => (.json StatusUnauthorized ⟨false, "ERR: " ++ e⟩, w2)
    | .value existingBid => (.json StatusOK ⟨false, cachedMessage existingBid⟩, w2)
    | .errNil =>
      if value ≤ w2.CurrentBidValue then
        (.json StatusBadRequest
          ⟨false, "Bidding value must be greater than current value"⟩, w2)
      else
        let w3 := w2.emit (.sleep (3 * Second))
        match env.setErr with
        | some e =>
          (.json StatusInternalServerError ⟨false, "Cannot save value. ERR: " ++ e⟩,
            { w3.emit (.set (recordKey key) value KeyExpireTime false) with
              store := storeAfterSet env w3.store (recordKey key) value })
        | none =>
          let w4 := { w3.emit (.set (recordKey key) value KeyExpireTime true) with
                      store := storeAfterSet env w3.store (recordKey key) value }
          let w5 := { w4 with CurrentBidValue := value }
          (.json StatusOK ⟨true, savedMessage w5.CurrentBidValue⟩, w5)

/-- Source function `postBidHandler` (lines 38-94). -/
def postBidHandler (key : String) (env : Env) (w : World) : HandlerResult × World :=
  if key = "" then
    (.json StatusUnauthorized ⟨false, "Require Idempotence Key"⟩, w)
  else
    runWithLock env.lockErr (lockName key) (postBidBody key env) w

/-- Source function `getBidHandler` (lines 96-100). -/
def getBidHandler (w : World) : HandlerResult × World :=
  (.bid StatusOK w.CurrentBidValue, w)

/-! ## Sequential executions -/

/-- One thing that happens to the process: a request, or the store dropping a
key whose TTL has elapsed. -/
inductive Action where
  | postBid (key : String) (env : Env)
  | getBid
  | expire (key : String)
deriving DecidableEq, Repr

/-- Whether an action is an HTTP request (not a TTL expiry). -/
def Action.isRequest : Action → Bool
  | .expire _ => false
  | _ => true

/-- Whether an action is a request whose `SET`, if reached, returns an error
although Redis executes it. -/
def Action.lostWrite : Action → Bool
  | .postBid _ env => env.lostWrite
  | _ => false

/-- Effect of one action on the state. -/
def Action.apply : Action → World → World
  | .postBid key env, w => (postBidHandler key env w).2
  | .getBid, w => (getBidHandler w).2
  | .expire key, w => { w with store := w.store.del key }

/-- Run actions one after the other. -/
def exec : List Action → World → World
  | [], w => w
  | a :: rest, w => exec rest (a.apply w)

/-- Values of the `SET` calls of a trace that returned without error. -/
def committedValues : List Event → List Int
  | [] => []
  | .set _ v _ true :: rest => v :: committedValues rest
  | _ :: rest => committedValues rest

/-- Largest element of a list of integers, `0` for the empty list. -/
def maxValue : List Int → Int
  | [] => 0
  | v :: rest => max v (maxValue rest)

/-- Values of the records currently in the store. -/
def Store.values (s : Store) : List Int := s.map (fun p => p.2.value)

/-- Calls of a request that holds the lock of `key` around the calls `body`. -/
def locked (key : String) (body : List Event) : List Event :=
  .lock (lockName key) LockExpireTime true :: body ++ [.unlock (lockName key)]

/-! ## Concurrent executions

Each request is served by its own goroutine.  A goroutine is modelled by the
statement of `postBidHandler` it is about to execute; two goroutines are
interleaved statement by statement over the shared state.  `lock.Lock()` on a
name that another goroutine holds does not return yet (the provider keeps
retrying); it returns an error only when the environment says so. -/

/-- Statement a goroutine serving `POST /bid` is about to execute. -/
inductive Pc where
  | tokenCheck
  | lockAcquire
  | bodyParse
  | lookup (value : Int)
  | validate (value : Int)
  | delay (value : Int)
  | commit (value : Int)
  | assign (value : Int)
  | reply (value : Int)
  | release (result : HandlerResult)
  | done (result : HandlerResult)
deriving DecidableEq, Repr

/-- A goroutine serving one `POST /bid`. -/
structure Worker where
  key : String
  env : Env
  pc : Pc
deriving DecidableEq, Repr

/-- A goroutine that has just entered `postBidHandler`. -/
def Worker.start (key : String) (env : Env) : Worker :=
  { key := key, env := env, pc := .tokenCheck }

/-- Move a goroutine to another statement. -/
def Worker.goto (t : Worker) (pc : Pc) : Worker := { t with pc := pc }

/-- Execute the next statement of a goroutine. -/
def Worker.step (w : World) (t : Worker) : World × Worker :=
  match t.pc with
  | .tokenCheck =>
    if t.key = "" then
      (w, t.goto (.done (.json StatusUnauthorized ⟨false, "Require Idempotence Key"⟩)))
    else (w, t.goto .lockAcquire)
  | .lockAcquire =>
    match t.env.lockErr with
    | some err =>
      (w.emit (.lock (lockName t.key) LockExpireTime false), t.goto (.done (.failed err)))
    | none =>
      if lockName t.key ∈ w.held then (w, t)
      else
        ({ w.emit (.lock (lockName t.key) LockExpireTime true) with
            held := lockName t.key :: w.held }, t.goto .bodyParse)
  | .bodyParse =>
    match t.env.bind with
    | .err detail =>
      (w.emit .bind,
        t.goto (.release (.json StatusBadRequest ⟨false, "Invalid request. ERR: " ++ detail⟩)))
    | .ok value => (w.emit .bind, t.goto (.lookup value))
  | .lookup value =>
    match redisGet t.env.getErr w.store (recordKey t.key) with
    | .error e =>
      (w.emit (.get (recordKey t.key)),
        t.goto (.release (.json StatusUnauthorized ⟨false, "ERR: " ++ e⟩)))
    | .value existingBid =>
      (w.emit (.get (recordKey t.key)),
        t.goto (.release (.json StatusOK ⟨false, cachedMessage existingBid⟩)))
    | .errNil => (w.emit (.get (recordKey t.key)), t.goto (.validate value))
  | .validate value =>
    if value ≤ w.CurrentBidValue then
      (w, t.goto (.release (.json StatusBadRequest
        ⟨false, "Bidding value must be greater than current value"⟩)))
    else (w, t.goto (.delay value))
  | .delay value => (w.emit (.sleep (3 * Second)), t.goto (.commit value))
  | .commit value =>
    match t.env.setErr with
    | some e =>
      ({ w.emit (.set (recordKey t.key) value KeyExpireTime false) with
          store := storeAfterSet t.env w.store (recordKey t.key) value },
        t.goto (.release (.json StatusInternalServerError
          ⟨false, "Cannot save value. ERR: " ++ e⟩)))
    | none =>
      ({ w.emit (.set (recordKey t.key) value KeyExpireTime true) with
          store := storeAfterSet t.env w.store (recordKey t.key) value },
        t.goto (.assign value))
  | .assign value => ({ w with CurrentBidValue := value }, t.goto (.reply value))
  | .reply _ =>
    (w, t.goto (.release (.json StatusOK ⟨true, savedMessage w.CurrentBidValue⟩)))
  | .release result =>
    ({ w.emit (.unlock (lockName t.key)) with held := w.held.erase (lockName t.key) },
      t.goto (.done result))
  | .done _ => (w, t)

/-- Run one goroutine alone for `n` statements. -/
def Worker.run : Nat → World → Worker → World × Worker
  | 0, w, t => (w, t)
  | n + 1, w, t => Worker.run n (t.step w).1 (t.step w).2

/-- Shared state and two goroutines. -/
structure Config where
  world : World
  first : Worker
  second : Worker
deriving DecidableEq, Repr

/-- Let the first (`true`) or the second (`false`) goroutine execute one statement. -/
def Config.step (c : Config) (pick : Bool) : Config :=
  if pick then
    { c with world := (c.first.step c.world).1, first := (c.first.step c.world).2 }
  else
    { c with world := (c.second.step c.world).1, second := (c.second.step c.world).2 }

/-- Run two goroutines under a schedule. -/
def interleave : List Bool → Config → Config
  | [], c => c
  | pick :: rest, c => interleave rest (c.step pick)

/-- Whether a goroutine has executed the assignment of line 87. -/
def Pc.assigned : Pc → Bool
  | .reply _ => true
  | .release (.json _ ⟨true, _⟩) => true
  | .done (.json _ ⟨true, _⟩) => true
  | _ => false

/-- The decoded `request.Value`, once the goroutine is past `c.Bind`. -/
def Pc.value? : Pc → Option Int
  | .lookup v | .validate v | .delay v | .commit v | .assign v | .reply v => some v
  | _ => none

/-- An environment in which the lock, the body and the store all behave. -/
def Env.good (value : Int) : Env :=
  { lockErr := none, bind := .ok value, getErr := none, setErr := none }

/-- Whether a call goes to the lock provider. -/
def Event.isLockCall : Event → Bool
  | .lock _ _ _ => true
  | .unlock _ => true
  | _ => false

/-- The value a goroutine carries, and the fact that it assigned, come from its body. -/
def Worker.wf (t : Worker) : Prop :=
  (∀ v, t.pc.value? = some v → t.env.bind = .ok v) ∧
  (t.pc.assigned = true → ∃ v, t.env.bind = .ok v)

/-- The current bid is the value of this goroutine, which has assigned it. -/
def Worker.owns (w : World) (t : Worker) : Prop :=
  t.pc.assigned = true ∧ t.env.bind = .ok w.CurrentBidValue

/-- Invariant of two interleaved goroutines: once one of them has executed the
assignment of line 87, the current bid is the value of one that has. -/
def Config.inv (c : Config) : Prop :=
  c.first.wf ∧ c.second.wf ∧
  ((c.first.pc.assigned = true ∨ c.second.pc.assigned = true) →
    c.first.owns c.world ∨ c.second.owns c.world)

/-- The schedule that loses an update: both goroutines validate, then the
first commits, then the second. -/
def lostUpdate : List Bool :=
  List.replicate 5 true ++ List.replicate 5 false
    ++ List.replicate 5 true ++ List.replicate 5 false

/-- The schedule in which the second goroutine assigns between the assignment
and the reply of the first. -/
def overtaken : List Bool :=
  List.replicate 5 true ++ List.replicate 5 false ++ List.replicate 3 true
    ++ List.replicate 3 false ++ List.replicate 2 true ++ List.replicate 2 false

/-- Shared state and any number of goroutines. -/
structure Pool where
  world : World
  workers : List Worker
deriving DecidableEq, Repr

/-- Let goroutine number `i` execute one statement. -/
def Pool.step (p : Pool) (i : Nat) : Pool :=
  match p.workers[i]? with
  | none => p
  | some t => { world := (t.step p.world).1, workers := p.workers.set i (t.step p.world).2 }

/-- Run a pool of goroutines under a schedule. -/
def Pool.run : List Nat → Pool → Pool
  | [], p => p
  | i :: rest, p => Pool.run rest (p.step i)

/-- Three submissions at process start: "a" with 10, "b" with 5, "c" with 7. -/
def threeBids : Pool :=
  { world := World.init,
    workers := [Worker.start "a" (Env.good 10), Worker.start "b" (Env.good 5),
      Worker.start "c" (Env.good 7)] }

/-- Goroutines 0 and 1 validate against the current bid 0, then goroutine 0
commits its 10 and answers. -/
def firstCommits : List Nat :=
  List.replicate 5 0 ++ List.replicate 5 1 ++ List.replicate 5 0

/-- Goroutine 2 runs up to its rejection, goroutine 1 commits its 5 and
answers, then goroutine 2 releases its lock and answers. -/
def thirdOverlaps : List Nat :=
  List.replicate 5 2 ++ List.replicate 5 1 ++ [2]

/-! ## Facts about the store and the trace -/

theorem Store.del_of_get_none (s : Store) (key : String) (h : s.get key = none) :
    s.del key = s := by
  induction s with
  | nil => rfl
  | cons p rest ih =>
    obtain ⟨k, e⟩ := p
    by_cases hk : k = key
    · simp [Store.get, hk] at h
    · have hr : Store.get rest key = none := by simpa [Store.get, hk] using h
      simp [Store.del, hk, ih hr]

theorem Store.get_del_of_ne (s : Store) (key other : String) (h : other ≠ key) :
    (s.del other).get key = s.get key := by
  induction s with
  | nil => rfl
  | cons p rest ih =>
    obtain ⟨k, e⟩ := p
    by_cases hk : k = other
    · have hk' : k ≠ key := by rw [hk]; exact h
      simp [Store.del, hk, Store.get, h, ih]
    · by_cases hk2 : k = key
      · subst hk2
        simp [Store.del, hk, Store.get]
      · simp [Store.del, hk, Store.get, hk2, ih]

theorem Store.get_set_self (s : Store) (key : String) (e : Entry) :
    (s.set key e).get key = some e := by
  simp [Store.set, Store.get]

theorem Store.get_set_of_ne (s : Store) (key other : String) (e : Entry) (h : other ≠ key) :
    (s.set other e).get key = s.get key := by
  simp [Store.set, Store.get, h, Store.get_del_of_ne]

theorem redisGet_errNil (getErr : Option String) (s : Store) (key : String) :
    redisGet getErr s key = .errNil ↔ getErr = none ∧ s.get key = none := by
  unfold redisGet
  cases getErr with
  | some e => simp
  | none => cases hs : s.get key <;> simp

theorem committedValues_append (l₁ l₂ : List Event) :
    committedValues (l₁ ++ l₂) = committedValues l₁ ++ committedValues l₂ := by
  induction l₁ with
  | nil => rfl
  | cons e rest ih =>
    cases e with
    | set k v ex ok => cases ok <;> simp [committedValues, ih]
    | _ => simp [committedValues, ih]

theorem maxValue_nonneg (l : List Int) : 0 ≤ maxValue l := by
  induction l with
  | nil => simp [maxValue]
  | cons v rest ih => simp [maxValue, ih]

theorem maxValue_append (l₁ l₂ : List Int) :
    maxValue (l₁ ++ l₂) = max (maxValue l₁) (maxValue l₂) := by
  induction l₁ with
  | nil => simp [maxValue, maxValue_nonneg]
  | cons v rest ih => simp [maxValue, ih, max_assoc]

/-! ## The eight exits of `postBidHandler` -/
theorem postBidHandler_missing (env : Env) (w : World) :
    postBidHandler "" env w
      = (.json StatusUnauthorized ⟨false, "Require Idempotence Key"⟩, w) := by
  simp [postBidHandler]

theorem postBidHandler_lockFailed (key : String) (env : Env) (w : World) (err : String)
    (hk : key ≠ "") (hl : env.lockErr = some err) :
    postBidHandler key env w
      = (.failed err, { w with log := w.log ++ [.lock (lockName key) LockExpireTime false] }) := by
  simp [postBidHandler, runWithLock, World.emit, hk, hl]

theorem postBidHandler_bindFailed (key : String) (env : Env) (w : World) (detail : String)
    (hk : key ≠ "") (hl : env.lockErr = none) (hb : env.bind = .err detail) :
    postBidHandler key env w
      = (.json StatusBadRequest ⟨false, "Invalid request. ERR: " ++ detail⟩,
          { w with log := w.log ++ locked key [.bind] }) := by
  simp [postBidHandler, runWithLock, postBidBody, World.emit, locked, hk, hl, hb]

theorem postBidHandler_getFailed (key : String) (env : Env) (w : World) (v : Int) (e : String)
    (hk : key ≠ "") (hl : env.lockErr = none) (hb : env.bind = .ok v)
    (hg : env.getErr = some e) :
    postBidHandler key env w
      = (.json StatusUnauthorized ⟨false, "ERR: " ++ e⟩,
          { w with log := w.log ++ locked key [.bind, .get key] }) := by
  simp [postBidHandler, runWithLock, postBidBody, redisGet, recordKey, World.emit, locked,
    hk, hl, hb, hg]

theorem postBidHandler_cached (key : String) (env : Env) (w : World) (v : Int) (e : Entry)
    (hk : key ≠ "") (hl : env.lockErr = none) (hb : env.bind = .ok v)
    (hg : env.getErr = none) (hs : w.store.get key = some e) :
    postBidHandler key env w
      = (.json StatusOK ⟨false, cachedMessage e.value⟩,
          { w with log := w.log ++ locked key [.bind, .get key] }) := by
  simp [postBidHandler, runWithLock, postBidBody, redisGet, recordKey, World.emit, locked,
    hk, hl, hb, hg, hs]

theorem postBidHandler_rejected (key : String) (env : Env) (w : World) (v : Int)
    (hk : key ≠ "") (hl : env.lockErr = none) (hb : env.bind = .ok v)
    (hg : env.getErr = none) (hs : w.store.get key = none) (hv : v ≤ w.CurrentBidValue) :
    postBidHandler key env w
      = (.json StatusBadRequest ⟨false, "Bidding value must be greater than current value"⟩,
          { w with log := w.log ++ locked key [.bind, .get key] }) := by
  simp [postBidHandler, runWithLock, postBidBody, redisGet, recordKey, World.emit, locked,
    hk, hl, hb, hg, hs, hv]

theorem postBidHandler_setFailed (key : String) (env : Env) (w : World) (v : Int) (e : String)
    (hk : key ≠ "") (hl : env.lockErr = none) (hb : env.bind = .ok v)
    (hg : env.getErr = none) (hs : w.store.get key = none) (hv : w.CurrentBidValue < v)
    (hw : env.setErr = some e) :
    postBidHandler key env w
      = (.json StatusInternalServerError ⟨false, "Cannot save value. ERR: " ++ e⟩,
          { w with
            store := if env.setLost = true then w.store.set key ⟨v, KeyExpireTime⟩ else w.store,
            log := w.log ++ locked key
              [.bind, .get key, .sleep (3 * Second), .set key v KeyExpireTime false] }) := by
  simp [postBidHandler, runWithLock, postBidBody, redisGet, recordKey, World.emit, locked,
    storeAfterSet, hk, hl, hb, hg, hs, not_le.mpr hv, hw]

theorem postBidHandler_saved (key : String) (env : Env) (w : World) (v : Int)
    (hk : key ≠ "") (hl : env.lockErr = none) (hb : env.bind = .ok v)
    (hg : env.getErr = none) (hs : w.store.get key = none) (hv : w.CurrentBidValue < v)
    (hw : env.setErr = none) :
    postBidHandler key env w
      = (.json StatusOK ⟨true, savedMessage v⟩,
          { w with
            CurrentBidValue := v,
            store := w.store.set key ⟨v, KeyExpireTime⟩,
            log := w.log ++ locked key
              [.bind, .get key, .sleep (3 * Second), .set key v KeyExpireTime true] }) := by
  simp [postBidHandler, runWithLock, postBidBody, redisGet, recordKey, World.emit, locked,
    storeAfterSet, hk, hl, hb, hg, hs, not_le.mpr hv, hw]

/-- Every request either leaves the bid alone and does not answer `ok = true`
(the store is then as before, unless a `SET` was executed whose reply was
lost), or it took the success exit. -/
theorem postBidHandler_cases (key : String) (env : Env) (w : World) :
    ((postBidHandler key env w).2.CurrentBidValue = w.CurrentBidValue ∧
      ((postBidHandler key env w).2.store = w.store ∨
        (∃ v, env.bind = .ok v ∧ env.lostWrite = true ∧ w.store.get key = none ∧
          w.CurrentBidValue < v ∧
          (postBidHandler key env w).2.store = w.store.set key ⟨v, KeyExpireTime⟩)) ∧
      (postBidHandler key env w).2.held = w.held ∧
      committedValues (postBidHandler key env w).2.log = committedValues w.log ∧
      ∀ st m, (postBidHandler key env w).1 ≠ .json st ⟨true, m⟩) ∨
    (∃ v, key ≠ "" ∧ env.lockErr = none ∧ env.bind = .ok v ∧ env.getErr = none ∧
      env.setErr = none ∧ w.store.get key = none ∧ w.CurrentBidValue < v ∧
      (postBidHandler key env w).1 = .json StatusOK ⟨true, savedMessage v⟩ ∧
      (postBidHandler key env w).2.CurrentBidValue = v ∧
      (postBidHandler key env w).2.store = w.store.set key ⟨v, KeyExpireTime⟩ ∧
      (postBidHandler key env w).2.held = w.held ∧
      committedValues (postBidHandler key env w).2.log = committedValues w.log ++ [v]) := by
  by_cases hk : key = ""
  · subst hk
    left
    simp [postBidHandler_missing]
  cases hl : env.lockErr with
  | some err =>
    left
    simp [postBidHandler_lockFailed key env w err hk hl, committedValues_append, committedValues]
  | none =>
  cases hb : env.bind with
  | err detail =>
    left
    simp [postBidHandler_bindFailed key env w detail hk hl hb, committedValues_append,
      committedValues, locked]
  | ok v =>
  cases hg : env.getErr with
  | some e =>
    left
    simp [postBidHandler_getFailed key env w v e hk hl hb hg, committedValues_append,
      committedValues, locked]
  | none =>
  cases hs : w.store.get key with
  | some e =>
    left
    simp [postBidHandler_cached key env w v e hk hl hb hg hs, committedValues_append,
      committedValues, locked]
  | none =>
  by_cases hv : v ≤ w.CurrentBidValue
  · left
    simp [postBidHandler_rejected key env w v hk hl hb hg hs hv, committedValues_append,
      committedValues, locked]
  have hv' : w.CurrentBidValue < v := not_le.mp hv
  cases hw : env.setErr with
  | some e =>
    left
    rw [postBidHandler_setFailed key env w v e hk hl hb hg hs hv' hw]
    refine ⟨rfl, ?_, rfl, by simp [committedValues_append, committedValues, locked],
      by simp⟩
    cases hlost : env.setLost with
    | false => left; simp
    | true => right; exact ⟨v, rfl, by simp [Env.lostWrite, hw, hlost], rfl, hv', by simp⟩
  | none =>
    right
    refine ⟨v, hk, rfl, rfl, rfl, rfl, rfl, hv', ?_⟩
    simp [postBidHandler_saved key env w v hk hl hb hg hs hv' hw, committedValues_append,
      committedValues, locked]

/-! ## Claims about a single request -/

/-- C5: a `POST /bid` whose `Idempotence-Key` header is missing or empty is
answered 401 with `ok = false` and "Require Idempotence Key"; the state and the
call trace are exactly as before, so no lock was tried, the store was neither
read nor written, and `CurrentBidValue` is unchanged, whatever the body and the
environment are. -/
theorem missing_key_unauthorized (env : Env) (w : World) :
    (postBidHandler "" env w).1 = .json 401 ⟨false, "Require Idempotence Key"⟩ ∧
    (postBidHandler "" env w).2.log = w.log ∧
    (postBidHandler "" env w).2.held = w.held ∧
    (postBidHandler "" env w).2.store = w.store ∧
    (postBidHandler "" env w).2.CurrentBidValue = w.CurrentBidValue ∧
    (Worker.start "" env).step w
      = (w, (Worker.start "" env).goto
          (.done (.json 401 ⟨false, "Require Idempotence Key"⟩))) := by
  simp [postBidHandler_missing, StatusUnauthorized, Worker.step, Worker.start, Worker.goto]

/-- Counterexample to C6 as stated: with token "a" and a failing lock the
handler does not answer 401 with the lock error as message; it writes no
response and returns the error itself. -/
theorem lock_failure_is_not_401 :
    (postBidHandler "a"
        { lockErr := some "redsync: failed to acquire lock", bind := .ok 1,
          getErr := none, setErr := none } World.init).1
      ≠ .json 401 ⟨false, "redsync: failed to acquire lock"⟩ ∧
    (postBidHandler "a"
        { lockErr := some "redsync: failed to acquire lock", bind := .ok 1,
          getErr := none, setErr := none } World.init).1
      = .failed "redsync: failed to acquire lock" := by
  decide

/-- C6 (amended): for a non-empty token whose lock acquisition fails with error
`err`, the handler writes no response of its own and returns `err` to its
caller; the only call made is the failed lock attempt on `lock:<token>`, so the
protected body is not run: no store access, no lock held, `CurrentBidValue`
unchanged. -/
theorem lock_failure_propagated (key : String) (env : Env) (w : World) (err : String)
    (hk : key ≠ "") (hl : env.lockErr = some err) :
    (postBidHandler key env w).1 = .failed err ∧
    (postBidHandler key env w).2.log = w.log ++ [.lock ("lock:" ++ key) LockExpireTime false] ∧
    (postBidHandler key env w).2.store = w.store ∧
    (postBidHandler key env w).2.held = w.held ∧
    (postBidHandler key env w).2.CurrentBidValue = w.CurrentBidValue := by
  simp [postBidHandler_lockFailed key env w err hk hl, lockName]

/-- Witness for C6: token "a", lock error "busy". -/
theorem lock_failure_propagated_witness :
    (postBidHandler "a" { Env.good 7 with lockErr := some "busy" } World.init).1
      = .failed "busy" ∧
    (postBidHandler "a" { Env.good 7 with lockErr := some "busy" } World.init).2.log
      = World.init.log ++ [.lock ("lock:" ++ "a") LockExpireTime false] ∧
    (postBidHandler "a" { Env.good 7 with lockErr := some "busy" } World.init).2.store
      = World.init.store ∧
    (postBidHandler "a" { Env.good 7 with lockErr := some "busy" } World.init).2.held
      = World.init.held ∧
    (postBidHandler "a" { Env.good 7 with lockErr := some "busy" } World.init).2.CurrentBidValue
      = World.init.CurrentBidValue :=
  lock_failure_propagated "a" { Env.good 7 with lockErr := some "busy" } World.init "busy"
    (by decide) rfl

/-- Counterexample to C2 as stated: after a bid of 100 under token "a" was
saved, a second `POST /bid` with token "a" and value 100 (not above the current
bid of 100) is answered 200 "(cached)", not 400. -/
theorem low_bid_replay_is_not_400 :
    (100 : Int) ≤ (postBidHandler "a" (Env.good 100) World.init).2.CurrentBidValue ∧
    (postBidHandler "a" (Env.good 100)
        (postBidHandler "a" (Env.good 100) World.init).2).1
      = .json 200 ⟨false, "Bid with value 100 (cached)"⟩ ∧
    (postBidHandler "a" (Env.good 100)
        (postBidHandler "a" (Env.good 100) World.init).2).1
      ≠ .json 400 ⟨false, "Bidding value must be greater than current value"⟩ := by
  decide

/-- C2 (amended): a `POST /bid` carrying a token and a parsed body whose value
is at most `CurrentBidValue` never changes `CurrentBidValue` or the store; when
moreover the lock is acquired and the lookup of the token reports not-found, it
is answered 400 with `ok = false` and
"Bidding value must be greater than current value". -/
theorem low_bid_rejected (key : String) (env : Env) (w : World) (v : Int)
    (hk : key ≠ "") (hb : env.bind = .ok v) (hv : v ≤ w.CurrentBidValue) :
    (postBidHandler key env w).2.CurrentBidValue = w.CurrentBidValue ∧
    (postBidHandler key env w).2.store = w.store ∧
    (env.lockErr = none → redisGet env.getErr w.store key = .errNil →
      (postBidHandler key env w).1
        = .json 400 ⟨false, "Bidding value must be greater than current value"⟩) := by
  refine ⟨?_, ?_, ?_⟩
  · rcases postBidHandler_cases key env w with h | ⟨v', -, -, hb', -, -, -, hlt, -⟩
    · exact h.1
    · rw [hb] at hb'
      cases hb'
      omega
  · rcases postBidHandler_cases key env w with h | ⟨v', -, -, hb', -, -, -, hlt, -⟩
    · rcases h.2.1 with hst | ⟨v', hb', -, -, hlt, -⟩
      · exact hst
      · rw [hb] at hb'
        cases hb'
        omega
    · rw [hb] at hb'
      cases hb'
      omega
  · intro hl hg
    obtain ⟨hg1, hs⟩ := (redisGet_errNil _ _ _).mp hg
    rw [postBidHandler_rejected key env w v hk hl hb hg1 hs hv]
    rfl

/-- Witness for C2: a bid of 0 under token "b" at process start. -/
theorem low_bid_rejected_witness :
    (postBidHandler "b" (Env.good 0) World.init).2.CurrentBidValue
      = World.init.CurrentBidValue ∧
    (postBidHandler "b" (Env.good 0) World.init).2.store = World.init.store ∧
    ((Env.good 0).lockErr = none →
      redisGet (Env.good 0).getErr World.init.store "b" = .errNil →
      (postBidHandler "b" (Env.good 0) World.init).1
        = .json 400 ⟨false, "Bidding value must be greater than current value"⟩) :=
  low_bid_rejected "b" (Env.good 0) World.init 0 (by decide) rfl (by decide)

/-! ## Lock discipline -/

/-- When the lock is acquired, the trace of a request is the acquisition, calls
that do not touch the lock provider, and one release. -/
theorem postBidHandler_locked_trace (key : String) (env : Env) (w : World)
    (hk : key ≠ "") (hl : env.lockErr = none) :
    ∃ body, (postBidHandler key env w).2.log = w.log ++ locked key body ∧
      ∀ e ∈ body, e.isLockCall = false := by
  cases hb : env.bind with
  | err detail =>
    exact ⟨[.bind], by simp [postBidHandler_bindFailed key env w detail hk hl hb],
      by simp [Event.isLockCall]⟩
  | ok v =>
  cases hg : env.getErr with
  | some e =>
    exact ⟨[.bind, .get key], by simp [postBidHandler_getFailed key env w v e hk hl hb hg],
      by simp [Event.isLockCall]⟩
  | none =>
  cases hs : w.store.get key with
  | some e =>
    exact ⟨[.bind, .get key], by simp [postBidHandler_cached key env w v e hk hl hb hg hs],
      by simp [Event.isLockCall]⟩
  | none =>
  by_cases hv : v ≤ w.CurrentBidValue
  · exact ⟨[.bind, .get key], by simp [postBidHandler_rejected key env w v hk hl hb hg hs hv],
      by simp [Event.isLockCall]⟩
  have hv' : w.CurrentBidValue < v := not_le.mp hv
  cases hw : env.setErr with
  | some e =>
    exact ⟨[.bind, .get key, .sleep (3 * Second), .set key v KeyExpireTime false],
      by simp [postBidHandler_setFailed key env w v e hk hl hb hg hs hv' hw],
      by simp [Event.isLockCall]⟩
  | none =>
    exact ⟨[.bind, .get key, .sleep (3 * Second), .set key v KeyExpireTime true],
      by simp [postBidHandler_saved key env w v hk hl hb hg hs hv' hw],
      by simp [Event.isLockCall]⟩

/-- C7: once `runWithLock` has acquired the lock on `resource`, it runs `f` on
the state in which the lock is held, returns exactly what `f` returned, and
makes one `Unlock` call after everything `f` did, which removes `resource` from
the held locks; for `postBidHandler` the calls between the acquisition and that
single release never touch the lock provider, whatever exit the body takes,
and the set of held locks after the handler is the one before it. -/
theorem lock_always_released (resource : String) (f : World → HandlerResult × World)
    (w : World) (key : String) (env : Env) :
    (runWithLock none resource f w).1
      = (f { w with log := w.log ++ [.lock resource LockExpireTime true],
                    held := resource :: w.held }).1 ∧
    (runWithLock none resource f w).2.log
      = (f { w with log := w.log ++ [.lock resource LockExpireTime true],
                    held := resource :: w.held }).2.log ++ [.unlock resource] ∧
    (runWithLock none resource f w).2.held
      = (f { w with log := w.log ++ [.lock resource LockExpireTime true],
                    held := resource :: w.held }).2.held.erase resource ∧
    (postBidHandler key env w).2.held = w.held ∧
    (key ≠ "" → env.lockErr = none →
      ∃ body, (postBidHandler key env w).2.log
          = w.log ++ ([.lock ("lock:" ++ key) LockExpireTime true] ++ body
              ++ [.unlock ("lock:" ++ key)]) ∧
        ∀ e ∈ body, e.isLockCall = false) := by
  refine ⟨rfl, rfl, rfl, ?_, ?_⟩
  · rcases postBidHandler_cases key env w with h | ⟨v, -, -, -, -, -, -, -, -, -, -, hh, -⟩
    · exact h.2.2.1
    · exact hh
  · intro hk hl
    obtain ⟨body, hlog, hbody⟩ := postBidHandler_locked_trace key env w hk hl
    exact ⟨body, by simpa [locked, lockName] using hlog, hbody⟩

/-- Witness for C7: the replay of token "a" after its bid of
100 was saved takes the lock `lock:a` and releases it once. -/
theorem lock_always_released_witness :
    ∃ body,
      (postBidHandler "a" (Env.good 100)
          (postBidHandler "a" (Env.good 100) World.init).2).2.log
        = (postBidHandler "a" (Env.good 100) World.init).2.log
            ++ ([.lock ("lock:" ++ "a") LockExpireTime true] ++ body
              ++ [.unlock ("lock:" ++ "a")]) ∧
      ∀ e ∈ body, e.isLockCall = false :=
  (lock_always_released "x" (postBidBody "a" (Env.good 100))
      (postBidHandler "a" (Env.good 100) World.init).2 "a" (Env.good 100)).2.2.2.2
    (by decide) rfl

/-! ## Key space -/

/-- Counterexample to C10 as stated: the record of token "lock:a" is stored
under the very key that names the lock of token "a". -/
theorem record_key_meets_lock_name :
    "lock:a" ≠ "" ∧ "a" ≠ "" ∧ recordKey "lock:a" = lockName "a" := by
  decide

/-- C10 (amended): the store key of the idempotency record of a token `t₁` that
does not begin with "lock:" differs from the lock resource name of every token
`t₂`; and for every token, its record key differs from its own lock name. -/
theorem record_key_ne_lock_name (t₁ t₂ : String)
    (h : ¬ ("lock:".data <+: t₁.data)) :
    recordKey t₁ ≠ lockName t₂ ∧ recordKey t₂ ≠ lockName t₂ := by
  constructor
  · intro heq
    apply h
    have : t₁.data = "lock:".data ++ t₂.data := by
      have := congrArg String.data heq
      simpa [recordKey, lockName] using this
    exact ⟨t₂.data, this.symm⟩
  · intro heq
    have := congrArg String.length heq
    simp [recordKey, lockName, String.length_append] at this
    exact absurd this (by decide)

/-- Witness for C10: tokens "a" and "b". -/
theorem record_key_ne_lock_name_witness :
    recordKey "a" ≠ lockName "b" ∧ recordKey "b" ≠ lockName "b" :=
  record_key_ne_lock_name "a" "b" (by decide)

/-! ## Sequences of requests -/

/-- A record that is present survives every request. -/
theorem postBidHandler_keeps_record (key : String) (env : Env) (w : World)
    (t : String) (e : Entry) (h : w.store.get t = some e) :
    (postBidHandler key env w).2.store.get t = some e := by
  rcases postBidHandler_cases key env w with hc | ⟨v, -, -, -, -, -, hs, -, -, -, hst, -⟩
  · rcases hc.2.1 with hst | ⟨v, -, -, hs, -, hst⟩
    · rw [hst]; exact h
    · have hne : key ≠ t := by
        intro heq
        rw [heq, h] at hs
        cases hs
      rw [hst, Store.get_set_of_ne _ _ _ _ hne]
      exact h
  · have hne : key ≠ t := by
      intro heq
      rw [heq, h] at hs
      cases hs
    rw [hst, Store.get_set_of_ne _ _ _ _ hne]
    exact h

/-- A record that is present survives every action other than its own expiry. -/
theorem Action.apply_keeps_record (a : Action) (w : World) (t : String) (e : Entry)
    (ha : a ≠ .expire t) (h : w.store.get t = some e) :
    (a.apply w).store.get t = some e := by
  cases a with
  | postBid key env => exact postBidHandler_keeps_record key env w t e h
  | getBid => exact h
  | expire key =>
    have hne : key ≠ t := fun heq => ha (by rw [heq])
    simp only [Action.apply]
    rw [Store.get_del_of_ne _ _ _ hne]
    exact h

theorem exec_keeps_record (acts : List Action) (w : World) (t : String) (e : Entry)
    (ha : ∀ a ∈ acts, a ≠ .expire t) (h : w.store.get t = some e) :
    (exec acts w).store.get t = some e := by
  induction acts generalizing w with
  | nil => exact h
  | cons a rest ih =>
    exact ih (a.apply w) (fun b hb => ha b (List.mem_cons_of_mem a hb))
      (Action.apply_keeps_record a w t e (ha a (List.mem_cons_self a rest)) h)

/-- C1: if a `POST /bid` with token `t` and value `v₁` was answered 200
"Bid with value v₁ (saved)", then after any further requests (and expiries of
other keys), a `POST /bid` with the same token and any value `v₂`, whose lock is
acquired, whose body parses and whose store read does not fail, is answered 200
with `ok = false` and "Bid with value v₁ (cached)", and leaves `CurrentBidValue`
and the whole store, in particular the record `v₁` under `t`, unchanged. -/
theorem idempotent_replay (w₀ : World) (t : String) (env₁ env₂ : Env) (v₁ v₂ : Int)
    (acts : List Action)
    (hb₁ : env₁.bind = .ok v₁)
    (h₁ : (postBidHandler t env₁ w₀).1
      = .json 200 ⟨true, "Bid with value " ++ toString v₁ ++ " (saved)"⟩)
    (hacts : ∀ a ∈ acts, a ≠ .expire t)
    (hl₂ : env₂.lockErr = none) (hb₂ : env₂.bind = .ok v₂) (hg₂ : env₂.getErr = none) :
    (postBidHandler t env₂ (exec acts (postBidHandler t env₁ w₀).2)).1
      = .json 200 ⟨false, "Bid with value " ++ toString v₁ ++ " (cached)"⟩ ∧
    (postBidHandler t env₂ (exec acts (postBidHandler t env₁ w₀).2)).2.CurrentBidValue
      = (exec acts (postBidHandler t env₁ w₀).2).CurrentBidValue ∧
    (postBidHandler t env₂ (exec acts (postBidHandler t env₁ w₀).2)).2.store
      = (exec acts (postBidHandler t env₁ w₀).2).store ∧
    (postBidHandler t env₂ (exec acts (postBidHandler t env₁ w₀).2)).2.store.get t
      = some ⟨v₁, 86400⟩ := by
  rcases postBidHandler_cases t env₁ w₀ with hc | ⟨v, hk, -, hb, -, -, -, -, -, -, hst, -⟩
  · exact absurd h₁ (hc.2.2.2.2 _ _)
  · rw [hb₁] at hb
    cases hb
    have hrec : (postBidHandler t env₁ w₀).2.store.get t = some ⟨v₁, KeyExpireTime⟩ := by
      rw [hst, Store.get_set_self]
    have hlater := exec_keeps_record acts _ t _ hacts hrec
    rw [postBidHandler_cached t env₂ _ v₂ _ hk hl₂ hb₂ hg₂ hlater]
    exact ⟨rfl, rfl, rfl, hlater⟩

/-- Witness for C1: token "a" saved with 100, then a bid of 50
under token "b", a `GET /bid` and the expiry of "b", then token "a" again with
value 200. -/
theorem idempotent_replay_witness :
    (postBidHandler "a" (Env.good 200)
        (exec [.postBid "b" (Env.good 50), .getBid, .expire "b"]
          (postBidHandler "a" (Env.good 100) World.init).2)).1
      = .json 200 ⟨false, "Bid with value " ++ toString (100 : Int) ++ " (cached)"⟩ :=
  (idempotent_replay World.init "a" (Env.good 100) (Env.good 200) 100 200
    [.postBid "b" (Env.good 50), .getBid, .expire "b"] rfl (by decide) (by decide)
    rfl rfl rfl).1

/-- The current bid is the largest value ever written by a successful `SET`. -/
theorem Action.apply_keeps_max_committed (a : Action) (w : World)
    (h : w.CurrentBidValue = maxValue (committedValues w.log)) :
    (a.apply w).CurrentBidValue = maxValue (committedValues (a.apply w).log) := by
  cases a with
  | postBid key env =>
    simp only [Action.apply]
    rcases postBidHandler_cases key env w with hc | ⟨v, -, -, -, -, -, -, hlt, -, hcur, -, -, hlog⟩
    · rw [hc.1, hc.2.2.2.1]; exact h
    · have h0 := maxValue_nonneg (committedValues w.log)
      rw [hcur, hlog, maxValue_append, ← h]
      rw [← h] at h0
      simp only [maxValue]
      omega
  | getBid => exact h
  | expire key => exact h

/-- Without expiry and without lost replies, the current bid is the largest
value recorded in the store. -/
theorem Action.apply_keeps_max_stored (a : Action) (w : World) (ha : a.isRequest = true)
    (hl : a.lostWrite = false) (h : w.CurrentBidValue = maxValue w.store.values) :
    (a.apply w).CurrentBidValue = maxValue (a.apply w).store.values := by
  cases a with
  | postBid key env =>
    simp only [Action.apply]
    rcases postBidHandler_cases key env w with hc | ⟨v, -, -, -, -, -, hs, hlt, -, hcur, hst, -⟩
    · rcases hc.2.1 with hst | ⟨v, -, hlost, -⟩
      · rw [hc.1, hst]; exact h
      · simp [Action.lostWrite, hlost] at hl
    · rw [hcur, hst, Store.set, Store.del_of_get_none _ _ hs]
      simp only [Store.values, List.map_cons, maxValue]
      have : maxValue (List.map (fun p => p.2.value) w.store) = w.CurrentBidValue := by
        rw [h]; rfl
      rw [this]
      omega
  | getBid => exact h
  | expire key => simp [Action.isRequest] at ha

/-- Without expiry, the current bid never exceeds the largest stored value. -/
theorem Action.apply_keeps_le_stored (a : Action) (w : World) (ha : a.isRequest = true)
    (h : w.CurrentBidValue ≤ maxValue w.store.values) :
    (a.apply w).CurrentBidValue ≤ maxValue (a.apply w).store.values := by
  cases a with
  | postBid key env =>
    simp only [Action.apply]
    rcases postBidHandler_cases key env w with hc | ⟨v, -, -, -, -, -, hs, hlt, -, hcur, hst, -⟩
    · rcases hc.2.1 with hst | ⟨v, -, -, hs, hlt, hst⟩
      · rw [hc.1, hst]; exact h
      · rw [hc.1, hst, Store.set, Store.del_of_get_none _ _ hs]
        simp only [Store.values, List.map_cons, maxValue]
        have : w.CurrentBidValue ≤ maxValue (List.map (fun p => p.2.value) w.store) := h
        omega
    · rw [hcur, hst, Store.set, Store.del_of_get_none _ _ hs]
      simp only [Store.values, List.map_cons, maxValue]
      omega
  | getBid => exact h
  | expire key => simp [Action.isRequest] at ha

theorem exec_max_committed (acts : List Action) (w : World)
    (h : w.CurrentBidValue = maxValue (committedValues w.log)) :
    (exec acts w).CurrentBidValue = maxValue (committedValues (exec acts w).log) := by
  induction acts generalizing w with
  | nil => exact h
  | cons a rest ih => exact ih (a.apply w) (Action.apply_keeps_max_committed a w h)

theorem exec_max_stored (acts : List Action) (w : World)
    (ha : ∀ a ∈ acts, a.isRequest = true) (hl : ∀ a ∈ acts, a.lostWrite = false)
    (h : w.CurrentBidValue = maxValue w.store.values) :
    (exec acts w).CurrentBidValue = maxValue (exec acts w).store.values := by
  induction acts generalizing w with
  | nil => exact h
  | cons a rest ih =>
    exact ih (a.apply w) (fun b hb => ha b (List.mem_cons_of_mem a hb))
      (fun b hb => hl b (List.mem_cons_of_mem a hb))
      (Action.apply_keeps_max_stored a w (ha a (List.mem_cons_self a rest))
        (hl a (List.mem_cons_self a rest)) h)

theorem exec_le_stored (acts : List Action) (w : World)
    (ha : ∀ a ∈ acts, a.isRequest = true)
    (h : w.CurrentBidValue ≤ maxValue w.store.values) :
    (exec acts w).CurrentBidValue ≤ maxValue (exec acts w).store.values := by
  induction acts generalizing w with
  | nil => exact h
  | cons a rest ih =>
    exact ih (a.apply w) (fun b hb => ha b (List.mem_cons_of_mem a hb))
      (Action.apply_keeps_le_stored a w (ha a (List.mem_cons_self a rest)) h)

/-- Counterexample to C3 as stated: at process start a bid of 300 under token
"c" whose `SET` is executed by Redis but whose reply is lost is answered 500;
the record 300 is in the store (a replay is answered "(cached)" with it) while
`CurrentBidValue` is still 0, below the maximum of the stored records. -/
theorem lost_reply_record_exceeds_current_bid :
    (postBidHandler "c" { Env.good 300 with setErr := some "EOF", setLost := true }
        World.init).1
      = .json 500 ⟨false, "Cannot save value. ERR: EOF"⟩ ∧
    (exec [.postBid "c" { Env.good 300 with setErr := some "EOF", setLost := true }]
        World.init).store.get "c" = some ⟨300, 86400⟩ ∧
    (exec [.postBid "c" { Env.good 300 with setErr := some "EOF", setLost := true }]
        World.init).CurrentBidValue = 0 ∧
    maxValue (exec [.postBid "c" { Env.good 300 with setErr := some "EOF", setLost := true }]
        World.init).store.values = 300 ∧
    (postBidHandler "c" (Env.good 300)
        (exec [.postBid "c" { Env.good 300 with setErr := some "EOF", setLost := true }]
          World.init)).1
      = .json 200 ⟨false, "Bid with value 300 (cached)"⟩ := by
  decide

/-- C3 (amended): starting from `CurrentBidValue = 0` and an empty store, after
every finite sequence of `POST /bid` and `GET /bid` requests run one after the
other (any tokens, bodies and lock/store outcomes, no TTL expiry),
`CurrentBidValue` equals the maximum of the values whose `SET` returned without
error (0 when there is none) and is at most the maximum of the values of the
records in the store; it equals that maximum when no `SET` that returned an
error was executed by the store. -/
theorem current_bid_is_max_acknowledged (acts : List Action)
    (hreq : ∀ a ∈ acts, a.isRequest = true) :
    (exec acts World.init).CurrentBidValue
      = maxValue (committedValues (exec acts World.init).log) ∧
    (exec acts World.init).CurrentBidValue
      ≤ maxValue (exec acts World.init).store.values ∧
    ((∀ a ∈ acts, a.lostWrite = false) →
      (exec acts World.init).CurrentBidValue
        = maxValue (exec acts World.init).store.values) :=
  ⟨exec_max_committed acts World.init rfl,
    exec_le_stored acts World.init hreq (le_refl _),
    fun hl => exec_max_stored acts World.init hreq hl rfl⟩

/-- Witness for C3: bids 100 ("a"), 100 again ("a"), 50 ("b"), 300 ("c") with a
write that fails, 200 ("d"), then `GET /bid`; the acknowledged values are 100
and 200, and the current bid is 200, the maximum of the stored values. -/
theorem current_bid_is_max_acknowledged_witness :
    (exec [.postBid "a" (Env.good 100), .postBid "a" (Env.good 100),
        .postBid "b" (Env.good 50),
        .postBid "c" { Env.good 300 with setErr := some "EOF" },
        .postBid "d" (Env.good 200), .getBid] World.init).CurrentBidValue
      = maxValue (committedValues
          (exec [.postBid "a" (Env.good 100), .postBid "a" (Env.good 100),
            .postBid "b" (Env.good 50),
            .postBid "c" { Env.good 300 with setErr := some "EOF" },
            .postBid "d" (Env.good 200), .getBid] World.init).log) ∧
    (exec [.postBid "a" (Env.good 100), .postBid "a" (Env.good 100),
        .postBid "b" (Env.good 50),
        .postBid "c" { Env.good 300 with setErr := some "EOF" },
        .postBid "d" (Env.good 200), .getBid] World.init).CurrentBidValue
      = maxValue (exec [.postBid "a" (Env.good 100), .postBid "a" (Env.good 100),
          .postBid "b" (Env.good 50),
          .postBid "c" { Env.good 300 with setErr := some "EOF" },
          .postBid "d" (Env.good 200), .getBid] World.init).store.values :=
  ⟨(current_bid_is_max_acknowledged
      [.postBid "a" (Env.good 100), .postBid "a" (Env.good 100),
        .postBid "b" (Env.good 50),
        .postBid "c" { Env.good 300 with setErr := some "EOF" },
        .postBid "d" (Env.good 200), .getBid] (by decide)).1,
    (current_bid_is_max_acknowledged
      [.postBid "a" (Env.good 100), .postBid "a" (Env.good 100),
        .postBid "b" (Env.good 50),
        .postBid "c" { Env.good 300 with setErr := some "EOF" },
        .postBid "d" (Env.good 200), .getBid] (by decide)).2.2 (by decide)⟩

/-! ## Goroutines -/

/-- A goroutine running alone, on a lock nobody holds, does what the handler does. -/
theorem Worker.run_eq_postBidHandler (key : String) (env : Env) (w : World)
    (hfree : lockName key ∉ w.held) :
    Worker.run 10 w (Worker.start key env)
      = ((postBidHandler key env w).2,
          (Worker.start key env).goto (.done (postBidHandler key env w).1)) := by
  by_cases hk : key = ""
  · subst hk
    simp [postBidHandler_missing, Worker.run, Worker.step, Worker.start, Worker.goto]
  cases hl : env.lockErr with
  | some err =>
    simp [postBidHandler_lockFailed key env w err hk hl, Worker.run, Worker.step,
      Worker.start, Worker.goto, World.emit, hk, hl]
  | none =>
  cases hb : env.bind with
  | err detail =>
    simp [postBidHandler_bindFailed key env w detail hk hl hb, Worker.run, Worker.step,
      Worker.start, Worker.goto, World.emit, hk, hl, hb, hfree, locked]
  | ok v =>
  cases hg : env.getErr with
  | some e =>
    simp [postBidHandler_getFailed key env w v e hk hl hb hg, Worker.run, Worker.step,
      Worker.start, Worker.goto, World.emit, hk, hl, hb, hg, hfree, locked, redisGet, recordKey]
  | none =>
  cases hs : w.store.get key with
  | some e =>
    simp [postBidHandler_cached key env w v e hk hl hb hg hs, Worker.run, Worker.step,
      Worker.start, Worker.goto, World.emit, hk, hl, hb, hg, hs, hfree, locked, redisGet,
      recordKey]
  | none =>
  by_cases hv : v ≤ w.CurrentBidValue
  · simp [postBidHandler_rejected key env w v hk hl hb hg hs hv, Worker.run, Worker.step,
      Worker.start, Worker.goto, World.emit, hk, hl, hb, hg, hs, hv, hfree, locked, redisGet,
      recordKey]
  have hv' : w.CurrentBidValue < v := not_le.mp hv
  cases hw : env.setErr with
  | some e =>
    simp [postBidHandler_setFailed key env w v e hk hl hb hg hs hv' hw, Worker.run,
      Worker.step, Worker.start, Worker.goto, World.emit, hk, hl, hb, hg, hs, hv, hw, hfree,
      locked, redisGet, recordKey, storeAfterSet]
  | none =>
    simp [postBidHandler_saved key env w v hk hl hb hg hs hv' hw, Worker.run,
      Worker.step, Worker.start, Worker.goto, World.emit, hk, hl, hb, hg, hs, hv, hw, hfree,
      locked, redisGet, recordKey, storeAfterSet]

theorem Worker.step_env (w : World) (t : Worker) : (t.step w).2.env = t.env := by
  unfold Worker.step
  split <;> (try split) <;> (try split) <;> simp [Worker.goto]

/-- A statement other than the assignment keeps the current bid and whether the
goroutine has assigned; the assignment sets the current bid to the carried value. -/
theorem Worker.step_cases (w : World) (t : Worker) :
    ((t.step w).1.CurrentBidValue = w.CurrentBidValue ∧
      (t.step w).2.pc.assigned = t.pc.assigned ∧
      (t.pc.assigned = false → (t.step w).2.pc.assigned = false)) ∨
    (∃ v, t.pc = .assign v ∧ (t.step w).1.CurrentBidValue = v ∧
      (t.step w).2.pc.assigned = true) := by
  unfold Worker.step
  split
  · left; split <;> simp_all [Worker.goto, Pc.assigned]
  · left; split
    · simp_all [Worker.goto, Pc.assigned, World.emit]
    · split <;> simp_all [Worker.goto, Pc.assigned, World.emit]
  · left; split <;> simp_all [Worker.goto, Pc.assigned, World.emit]
  · left; split <;> simp_all [Worker.goto, Pc.assigned, World.emit]
  · left; split <;> simp_all [Worker.goto, Pc.assigned]
  · left; simp_all [Worker.goto, Pc.assigned, World.emit]
  · left; split <;> simp_all [Worker.goto, Pc.assigned, World.emit]
  · right; rename_i v h; exact ⟨v, h, rfl, by simp [Worker.goto, Pc.assigned]⟩
  · left; simp_all [Worker.goto, Pc.assigned]
  · left
    rename_i r h
    cases r with
    | json st body => cases body with
      | mk ok m => cases ok <;> simp_all [Worker.goto, Pc.assigned, World.emit]
    | bid st v => simp_all [Worker.goto, Pc.assigned, World.emit]
    | failed e => simp_all [Worker.goto, Pc.assigned, World.emit]
  · left; simp

theorem Pc.assigned_done (r : HandlerResult) :
    (Pc.done r).assigned = (Pc.release r).assigned := by
  cases r with
  | json st body => cases body with
    | mk ok m => cases ok <;> rfl
  | bid st v => rfl
  | failed e => rfl

theorem Worker.step_wf (w : World) (t : Worker) (h : t.wf) : (t.step w).2.wf := by
  obtain ⟨key, env, pc⟩ := t
  obtain ⟨hval, hass⟩ := h
  unfold Worker.wf
  rw [Worker.step_env]
  cases pc with
  | tokenCheck =>
    simp only [Worker.step]
    split <;> simp [Worker.goto, Pc.value?, Pc.assigned]
  | lockAcquire =>
    simp only [Worker.step]
    split
    · simp [Worker.goto, Pc.value?, Pc.assigned]
    · split <;> simp [Worker.goto, Pc.value?, Pc.assigned]
  | bodyParse =>
    simp only [Worker.step]
    split
    · simp [Worker.goto, Pc.value?, Pc.assigned]
    · rename_i v hb
      simp [Worker.goto, Pc.value?, Pc.assigned, hb]
  | lookup v =>
    have hb := hval v rfl
    simp only [Worker.step]
    split <;> simp_all [Worker.goto, Pc.value?, Pc.assigned]
  | validate v =>
    have hb := hval v rfl
    simp only [Worker.step]
    split <;> simp_all [Worker.goto, Pc.value?, Pc.assigned]
  | delay v =>
    have hb := hval v rfl
    simp_all [Worker.step, Worker.goto, Pc.value?, Pc.assigned]
  | commit v =>
    have hb := hval v rfl
    simp only [Worker.step]
    split <;> simp_all [Worker.goto, Pc.value?, Pc.assigned]
  | assign v =>
    have hb := hval v rfl
    simp_all [Worker.step, Worker.goto, Pc.value?, Pc.assigned]
  | reply v =>
    have hb := hval v rfl
    simp_all [Worker.step, Worker.goto, Pc.value?, Pc.assigned]
  | release r =>
    simp only [Worker.step, Worker.goto, Pc.assigned_done]
    exact ⟨by simp [Pc.value?], hass⟩
  | done r =>
    simp only [Worker.step]
    exact ⟨hval, hass⟩

theorem Config.step_inv (c : Config) (pick : Bool) (h : c.inv) : (c.step pick).inv := by
  obtain ⟨h₁, h₂, hown⟩ := h
  cases pick with
  | true =>
    simp only [Config.step, if_true]
    refine ⟨Worker.step_wf _ _ h₁, h₂, ?_⟩
    simp only [Worker.owns, Worker.step_env]
    rcases Worker.step_cases c.world c.first with ⟨hcur, hsame, -⟩ | ⟨v, hpc, hcur, hnow⟩
    · rw [hcur, hsame]
      exact hown
    · intro _
      left
      refine ⟨hnow, ?_⟩
      rw [hcur]
      exact h₁.1 v (by rw [hpc]; rfl)
  | false =>
    simp only [Config.step, Bool.false_eq_true, if_false]
    refine ⟨h₁, Worker.step_wf _ _ h₂, ?_⟩
    simp only [Worker.owns, Worker.step_env]
    rcases Worker.step_cases c.world c.second with ⟨hcur, hsame, -⟩ | ⟨v, hpc, hcur, hnow⟩
    · rw [hcur, hsame]
      exact hown
    · intro _
      right
      refine ⟨hnow, ?_⟩
      rw [hcur]
      exact h₂.1 v (by rw [hpc]; rfl)

theorem interleave_inv (sched : List Bool) (c : Config) (h : c.inv) :
    (interleave sched c).inv := by
  induction sched generalizing c with
  | nil => exact h
  | cons pick rest ih => exact ih (c.step pick) (Config.step_inv c pick h)

theorem Config.start_inv (w : World) (t₁ t₂ : String) (env₁ env₂ : Env) :
    (Config.mk w (Worker.start t₁ env₁) (Worker.start t₂ env₂)).inv := by
  simp [Config.inv, Worker.wf, Worker.start, Pc.value?, Pc.assigned]

theorem Config.step_envs (c : Config) (pick : Bool) :
    (c.step pick).first.env = c.first.env ∧ (c.step pick).second.env = c.second.env := by
  cases pick <;> simp [Config.step, Worker.step_env]

theorem interleave_envs (sched : List Bool) (c : Config) :
    (interleave sched c).first.env = c.first.env ∧
    (interleave sched c).second.env = c.second.env := by
  induction sched generalizing c with
  | nil => exact ⟨rfl, rfl⟩
  | cons pick rest ih =>
    obtain ⟨h₁, h₂⟩ := ih (c.step pick)
    obtain ⟨e₁, e₂⟩ := Config.step_envs c pick
    exact ⟨h₁.trans e₁, h₂.trans e₂⟩

/-! ## Two concurrent submissions -/

/-- Counterexample to C9 as stated: tokens "a" and "b" with values 10 and 5,
both above the current bid 0; each goroutine takes its own lock, both validate
against the current bid 0, then the first commits 10 and the second commits 5.
Both are answered "(saved)" and the current bid ends at 5, below max(10, 5). -/
theorem lost_update :
    "a" ≠ "b" ∧ World.init.CurrentBidValue < 10 ∧ World.init.CurrentBidValue < 5 ∧
    (interleave lostUpdate
        ⟨World.init, Worker.start "a" (Env.good 10), Worker.start "b" (Env.good 5)⟩).first.pc
      = .done (.json 200 ⟨true, "Bid with value 10 (saved)"⟩) ∧
    (interleave lostUpdate
        ⟨World.init, Worker.start "a" (Env.good 10), Worker.start "b" (Env.good 5)⟩).second.pc
      = .done (.json 200 ⟨true, "Bid with value 5 (saved)"⟩) ∧
    (interleave lostUpdate
        ⟨World.init, Worker.start "a" (Env.good 10),
          Worker.start "b" (Env.good 5)⟩).world.CurrentBidValue = 5 ∧
    (interleave lostUpdate
        ⟨World.init, Worker.start "a" (Env.good 10),
          Worker.start "b" (Env.good 5)⟩).world.CurrentBidValue < max 10 5 := by
  decide

/-- C9 (amended): for two `POST /bid` submissions with values `v₁` and `v₂`,
under every interleaving of their goroutines in which both are answered with
`ok = true`, `CurrentBidValue` ends at `v₁` or at `v₂` (the value assigned
last); and when the two submissions run one after the other and both are
answered with `ok = true`, `CurrentBidValue` ends at `max v₁ v₂`. -/
theorem concurrent_bids_end_at_a_committed_value (w : World) (t₁ t₂ : String)
    (env₁ env₂ : Env) (v₁ v₂ : Int)
    (hb₁ : env₁.bind = .ok v₁) (hb₂ : env₂.bind = .ok v₂) :
    (∀ sched st₁ m₁ st₂ m₂,
      (interleave sched ⟨w, Worker.start t₁ env₁, Worker.start t₂ env₂⟩).first.pc
          = .done (.json st₁ ⟨true, m₁⟩) →
      (interleave sched ⟨w, Worker.start t₁ env₁, Worker.start t₂ env₂⟩).second.pc
          = .done (.json st₂ ⟨true, m₂⟩) →
      (interleave sched
          ⟨w, Worker.start t₁ env₁, Worker.start t₂ env₂⟩).world.CurrentBidValue = v₁ ∨
      (interleave sched
          ⟨w, Worker.start t₁ env₁, Worker.start t₂ env₂⟩).world.CurrentBidValue = v₂) ∧
    (∀ st₁ m₁ st₂ m₂,
      (postBidHandler t₁ env₁ w).1 = .json st₁ ⟨true, m₁⟩ →
      (postBidHandler t₂ env₂ (postBidHandler t₁ env₁ w).2).1 = .json st₂ ⟨true, m₂⟩ →
      (postBidHandler t₂ env₂ (postBidHandler t₁ env₁ w).2).2.CurrentBidValue
        = max v₁ v₂) := by
  constructor
  · intro sched st₁ m₁ st₂ m₂ h₁ h₂
    have hinv := interleave_inv sched _ (Config.start_inv w t₁ t₂ env₁ env₂)
    obtain ⟨e₁, e₂⟩ := interleave_envs sched ⟨w, Worker.start t₁ env₁, Worker.start t₂ env₂⟩
    have ha : (interleave sched
        ⟨w, Worker.start t₁ env₁, Worker.start t₂ env₂⟩).first.pc.assigned = true := by
      rw [h₁]; rfl
    rcases hinv.2.2 (Or.inl ha) with ⟨-, hown⟩ | ⟨-, hown⟩
    · left
      rw [e₁] at hown
      simp only [Worker.start] at hown
      rw [hb₁] at hown
      cases hown
      rfl
    · right
      rw [e₂] at hown
      simp only [Worker.start] at hown
      rw [hb₂] at hown
      cases hown
      rfl
  · intro st₁ m₁ st₂ m₂ h₁ h₂
    rcases postBidHandler_cases t₁ env₁ w with hc | ⟨a, -, -, ha, -, -, -, -, -, hcur₁, -⟩
    · exact absurd h₁ (hc.2.2.2.2 _ _)
    rcases postBidHandler_cases t₂ env₂ (postBidHandler t₁ env₁ w).2 with
      hc | ⟨b, -, -, hb, -, -, -, hlt, -, hcur₂, -⟩
    · exact absurd h₂ (hc.2.2.2.2 _ _)
    rw [hb₁] at ha
    rw [hb₂] at hb
    cases ha
    cases hb
    rw [hcur₂]
    rw [hcur₁] at hlt
    omega

/-- Witness for C9: under the schedule
`lostUpdate` the current bid ends at one of 10 and 5; run one after the other,
bids of 5 then 10 end at max(5, 10). -/
theorem concurrent_bids_end_at_a_committed_value_witness :
    ((interleave lostUpdate
        ⟨World.init, Worker.start "a" (Env.good 10),
          Worker.start "b" (Env.good 5)⟩).world.CurrentBidValue = 10 ∨
      (interleave lostUpdate
        ⟨World.init, Worker.start "a" (Env.good 10),
          Worker.start "b" (Env.good 5)⟩).world.CurrentBidValue = 5) ∧
    (postBidHandler "a" (Env.good 10)
        (postBidHandler "b" (Env.good 5) World.init).2).2.CurrentBidValue = max 5 10 :=
  ⟨(concurrent_bids_end_at_a_committed_value World.init "a" "b" (Env.good 10) (Env.good 5)
      10 5 rfl rfl).1 lostUpdate 200 "Bid with value 10 (saved)" 200
      "Bid with value 5 (saved)" (by decide) (by decide),
    (concurrent_bids_end_at_a_committed_value World.init "b" "a" (Env.good 5) (Env.good 10)
      5 10 rfl rfl).2 200 "Bid with value 5 (saved)" 200 "Bid with value 10 (saved)"
      (by decide) (by decide)⟩

/-! ## A request among concurrent requests -/

/-- The assignment of line 87 is reached only from an acknowledged `SET`. -/
theorem Worker.step_to_assign (w : World) (t : Worker) (v : Int)
    (h : (t.step w).2.pc = .assign v) :
    t.pc = .commit v ∧ t.env.setErr = none := by
  obtain ⟨key, env, pc⟩ := t
  cases pc with
  | tokenCheck =>
    simp only [Worker.step] at h
    split at h <;> simp [Worker.goto] at h
  | lockAcquire =>
    simp only [Worker.step] at h
    split at h
    · simp [Worker.goto] at h
    · split at h <;> simp [Worker.goto] at h
  | bodyParse =>
    simp only [Worker.step] at h
    split at h <;> simp [Worker.goto] at h
  | lookup u =>
    simp only [Worker.step] at h
    split at h <;> simp [Worker.goto] at h
  | validate u =>
    simp only [Worker.step] at h
    split at h <;> simp [Worker.goto] at h
  | delay u => simp [Worker.step, Worker.goto] at h
  | commit u =>
    simp only [Worker.step] at h
    split at h
    · simp [Worker.goto] at h
    · rename_i hw
      simp [Worker.goto] at h
      exact ⟨by rw [h], hw⟩
  | assign u =>
    simp [Worker.step, Worker.goto] at h
  | reply u => simp [Worker.step, Worker.goto] at h
  | release r => simp [Worker.step, Worker.goto] at h
  | done r => simp [Worker.step] at h

/-- Counterexample to C4 as stated: token "a" with value 10 at process start,
lock acquired, body parsed, lookup not-found, 10 above the current bid 0, write
acknowledged; a concurrent submission of token "b" with value 5 assigns between
the assignment (line 87) and the reply (line 91) of "a", so "a" is answered
"Bid with value 5 (saved)" and `CurrentBidValue` is 5, not 10. -/
theorem saved_reply_carries_other_value :
    (Env.good 10).lockErr = none ∧ (Env.good 10).bind = .ok 10 ∧
    redisGet (Env.good 10).getErr World.init.store "a" = .errNil ∧
    World.init.CurrentBidValue < 10 ∧ (Env.good 10).setErr = none ∧
    Event.lock "lock:a" LockExpireTime true ∈
      (interleave overtaken
        ⟨World.init, Worker.start "a" (Env.good 10), Worker.start "b" (Env.good 5)⟩).world.log ∧
    Event.set "a" 10 86400 true ∈
      (interleave overtaken
        ⟨World.init, Worker.start "a" (Env.good 10), Worker.start "b" (Env.good 5)⟩).world.log ∧
    (interleave overtaken
        ⟨World.init, Worker.start "a" (Env.good 10), Worker.start "b" (Env.good 5)⟩).first.pc
      = .done (.json 200 ⟨true, "Bid with value 5 (saved)"⟩) ∧
    (interleave overtaken
        ⟨World.init, Worker.start "a" (Env.good 10), Worker.start "b" (Env.good 5)⟩).first.pc
      ≠ .done (.json 200 ⟨true, "Bid with value 10 (saved)"⟩) ∧
    (interleave overtaken
        ⟨World.init, Worker.start "a" (Env.good 10),
          Worker.start "b" (Env.good 5)⟩).world.CurrentBidValue = 5 := by
  decide

/-- C4 (amended): for a non-empty token, when the request executes alone (no
statement of another request between its first and its last), the lock is
acquired, the body parses to `v`, the lookup of the token reports not-found,
`v` exceeds `CurrentBidValue` and the write succeeds, the response is 200 with
`ok = true` and "Bid with value v (saved)", `CurrentBidValue` becomes `v`, and
the store maps the token to `v` with an expiry of 86400 seconds; this is the
outcome of the handler run as one step and of its goroutine run alone on a
free lock. -/
theorem saved_postcondition_alone (key : String) (env : Env) (w : World) (v : Int)
    (hk : key ≠ "") (hl : env.lockErr = none) (hb : env.bind = .ok v)
    (hg : redisGet env.getErr w.store key = .errNil) (hv : w.CurrentBidValue < v)
    (hw : env.setErr = none) :
    (postBidHandler key env w).1
      = .json 200 ⟨true, "Bid with value " ++ toString v ++ " (saved)"⟩ ∧
    (postBidHandler key env w).2.CurrentBidValue = v ∧
    (postBidHandler key env w).2.store.get key = some ⟨v, 86400⟩ ∧
    (("lock:" ++ key) ∉ w.held →
      (Worker.run 10 w (Worker.start key env)).2.pc
        = .done (.json 200 ⟨true, "Bid with value " ++ toString v ++ " (saved)"⟩) ∧
      (Worker.run 10 w (Worker.start key env)).1.CurrentBidValue = v ∧
      (Worker.run 10 w (Worker.start key env)).1.store.get key = some ⟨v, 86400⟩) := by
  obtain ⟨hg1, hs⟩ := (redisGet_errNil _ _ _).mp hg
  have hseq : (postBidHandler key env w).1
        = .json 200 ⟨true, "Bid with value " ++ toString v ++ " (saved)"⟩ ∧
      (postBidHandler key env w).2.CurrentBidValue = v ∧
      (postBidHandler key env w).2.store.get key = some ⟨v, 86400⟩ := by
    rw [postBidHandler_saved key env w v hk hl hb hg1 hs hv hw]
    simp [StatusOK, savedMessage, Store.get_set_self, KeyExpireTime]
  refine ⟨hseq.1, hseq.2.1, hseq.2.2, fun hfree => ?_⟩
  rw [Worker.run_eq_postBidHandler key env w hfree]
  exact ⟨by simp [Worker.goto, hseq.1], hseq.2.1, hseq.2.2⟩

/-- Witness for C4: the first bid of 100 under token "a", run alone. -/
theorem saved_postcondition_alone_witness :
    (postBidHandler "a" (Env.good 100) World.init).1
      = .json 200 ⟨true, "Bid with value " ++ toString (100 : Int) ++ " (saved)"⟩ ∧
    (postBidHandler "a" (Env.good 100) World.init).2.CurrentBidValue = 100 ∧
    (postBidHandler "a" (Env.good 100) World.init).2.store.get "a" = some ⟨100, 86400⟩ ∧
    (Worker.run 10 World.init (Worker.start "a" (Env.good 100))).2.pc
      = .done (.json 200 ⟨true, "Bid with value " ++ toString (100 : Int) ++ " (saved)"⟩) :=
  ⟨(saved_postcondition_alone "a" (Env.good 100) World.init 100 (by decide) rfl rfl
      (by decide) (by decide) rfl).1,
    (saved_postcondition_alone "a" (Env.good 100) World.init 100 (by decide) rfl rfl
      (by decide) (by decide) rfl).2.1,
    (saved_postcondition_alone "a" (Env.good 100) World.init 100 (by decide) rfl rfl
      (by decide) (by decide) rfl).2.2.1,
    ((saved_postcondition_alone "a" (Env.good 100) World.init 100 (by decide) rfl rfl
      (by decide) (by decide) rfl).2.2.2 (by decide)).1⟩

/-- Counterexample to C8 as stated: submissions "a" (10) and "b" (5) both
validate against the current bid 0 and "a" commits, so the current bid is 10
when the submission "c" (7) begins; "c" is rejected with 400, and while it is
being served "b" commits its 5: the current bid after the request "c" is 5,
lower than the 10 before it, although "c" was not answered "(saved)". -/
theorem current_bid_decreases :
    (Pool.run firstCommits threeBids).world.CurrentBidValue = 10 ∧
    (Pool.run firstCommits threeBids).workers.map Worker.pc
      = [.done (.json 200 ⟨true, "Bid with value 10 (saved)"⟩), .delay 5, .tokenCheck] ∧
    (Pool.run thirdOverlaps (Pool.run firstCommits threeBids)).workers.map Worker.pc
      = [.done (.json 200 ⟨true, "Bid with value 10 (saved)"⟩),
          .done (.json 200 ⟨true, "Bid with value 5 (saved)"⟩),
          .done (.json 400 ⟨false, "Bidding value must be greater than current value"⟩)] ∧
    (Pool.run thirdOverlaps (Pool.run firstCommits threeBids)).world.CurrentBidValue = 5 ∧
    (Pool.run thirdOverlaps (Pool.run firstCommits threeBids)).world.CurrentBidValue
      < (Pool.run firstCommits threeBids).world.CurrentBidValue := by
  decide

/-- C8 (amended): `CurrentBidValue` is mutated only by successful commits: a
statement of a request changes it only if it is the assignment of line 87, and
that assignment is reached only after the request's own `SET` returned without
error. For a request that executes alone, `CurrentBidValue` after the request
is at least what it was before, it differs from the value before only when the
response is the 200 "(saved)" response, and a failed record write (the 500
"Cannot save value" response) leaves it unchanged; `GET /bid` changes nothing. -/
theorem current_bid_changed_by_commit_only (key : String) (env : Env) (w : World)
    (t : Worker) (v : Int) :
    ((t.step w).1.CurrentBidValue ≠ w.CurrentBidValue →
      ∃ u, t.pc = .assign u ∧ (t.step w).1.CurrentBidValue = u) ∧
    ((t.step w).2.pc = .assign v → t.pc = .commit v ∧ t.env.setErr = none) ∧
    w.CurrentBidValue ≤ (postBidHandler key env w).2.CurrentBidValue ∧
    ((postBidHandler key env w).2.CurrentBidValue ≠ w.CurrentBidValue →
      (postBidHandler key env w).1
        = .json 200 ⟨true, "Bid with value "
            ++ toString (postBidHandler key env w).2.CurrentBidValue ++ " (saved)"⟩) ∧
    (∀ e, (postBidHandler key env w).1
        = .json 500 ⟨false, "Cannot save value. ERR: " ++ e⟩ →
      (postBidHandler key env w).2.CurrentBidValue = w.CurrentBidValue) ∧
    (∀ e, env.setErr = some e →
      (postBidHandler key env w).2.CurrentBidValue = w.CurrentBidValue) ∧
    (getBidHandler w).2 = w ∧
    (getBidHandler w).1 = .bid 200 w.CurrentBidValue := by
  refine ⟨fun hne => ?_, Worker.step_to_assign w t v, ?_⟩
  · rcases Worker.step_cases w t with ⟨hcur, -, -⟩ | ⟨u, hpc, hcur, -⟩
    · exact absurd hcur hne
    · exact ⟨u, hpc, hcur⟩
  rcases postBidHandler_cases key env w with h | ⟨v, -, -, -, -, hw, -, hlt, hr, hc, -⟩
  · refine ⟨le_of_eq h.1.symm, fun hne => absurd h.1 hne, fun _ _ => h.1, fun _ _ => h.1,
      rfl, rfl⟩
  · refine ⟨by omega, fun _ => ?_, fun e he => ?_, fun e he => ?_, rfl, rfl⟩
    · rw [hr, hc]; rfl
    · rw [hr] at he
      simp [StatusOK] at he
    · rw [hw] at he
      cases he

/-- Witness for C8: run alone, the first bid of 100 raises the current bid and
is answered "(saved)"; the statement of a goroutine that changes the current
bid from 0 to 100 is its assignment. -/
theorem current_bid_changed_by_commit_only_witness :
    World.init.CurrentBidValue
      ≤ (postBidHandler "a" (Env.good 100) World.init).2.CurrentBidValue ∧
    (postBidHandler "a" (Env.good 100) World.init).1
      = .json 200 ⟨true, "Bid with value 100 (saved)"⟩ ∧
    (∃ u, (Pc.assign 100) = .assign u ∧
      (Worker.step World.init ⟨"a", Env.good 100, .assign 100⟩).1.CurrentBidValue = u) :=
  ⟨(current_bid_changed_by_commit_only "a" (Env.good 100) World.init
      ⟨"a", Env.good 100, .assign 100⟩ 100).2.2.1,
    (current_bid_changed_by_commit_only "a" (Env.good 100) World.init
      ⟨"a", Env.good 100, .assign 100⟩ 100).2.2.2.1 (by decide),
    (current_bid_changed_by_commit_only "a" (Env.good 100) World.init
      ⟨"a", Env.good 100, .assign 100⟩ 100).1 (by decide)⟩

end GoIdempotence
